import Mathlib

/-!
# Verification of the xzt-wall message-feed engine

Shallow embedding of the xzt-wall repository's server endpoint
(`src/server.js`) and of the client-side pagination / reconciliation
engine of its `MessageWall` variants
(`src/src/components/MessageWall.tsx`, `src/unnamed/part_000`,
`src/unnamed/part_001`, `src/unnamed/part_002`).

Timestamps (`Date.getTime()` values / SQL `created_at`) are modelled as
`Int`; the ISO-string round trip through `toISOString` / `new Date` is
order- and value-preserving, so cursors store the `Int` directly.
`Math.floor(Math.random() * 4)` draws are modelled as an explicit stream
`rng : Nat → Fin 4` consumed one value per mapped row.
JavaScript `Array.prototype.sort` is stable (ES2019); the comparator
`(a, b) => b.timestamp - a.timestamp` therefore realises the unique
stable descending sort by timestamp, embedded here as a structurally
recursive stable insertion sort `sortByDesc`.
-/

/-- The four gradient accents of `gradientTypes` in every variant. -/
inductive GradientType where
  | purple
  | cyan
  | green
  | orange
deriving DecidableEq, Repr

/-- `const gradientTypes = ['purple', 'cyan', 'green', 'orange']`. -/
def gradientTypes : List GradientType :=
  [.purple, .cyan, .green, .orange]

/-- A raw server row (`DBMessage` interface / a row of `public.messages`). -/
structure DBMessage where
  id : Nat
  username : Option String
  content : String
  created_at : Int
deriving DecidableEq, Repr

/-- A client display item (`Message` interface). -/
structure Message where
  id : String
  content : String
  author : String
  timestamp : Int
  gradientType : GradientType
deriving DecidableEq, Repr

/-- Stable insertion (descending by `key`): the new element is placed
before the first element whose key is not larger, matching the stable
behaviour of `Array.prototype.sort` with comparator `b.key - a.key`. -/
def insertDesc (key : α → Int) (m : α) : List α → List α
  | [] => [m]
  | x :: xs => if key x ≤ key m then m :: x :: xs else x :: insertDesc key m xs

/-- Stable descending sort by `key`: model of
`.sort((a, b) => b.timestamp - a.timestamp)` (and of SQL
`ORDER BY created_at DESC`). -/
def sortByDesc (key : α → Int) (l : List α) : List α :=
  l.foldr (insertDesc key) []

theorem insertDesc_perm (key : α → Int) (m : α) (l : List α) :
    List.Perm (insertDesc key m l) (m :: l) := by
  induction l with
  | nil => simp [insertDesc]
  | cons x xs ih =>
    by_cases h : key x ≤ key m
    · simp [insertDesc, h]
    · simp only [insertDesc, if_neg h]
      exact (ih.cons x).trans (List.Perm.swap m x xs)

theorem sortByDesc_perm (key : α → Int) (l : List α) :
    List.Perm (sortByDesc key l) l := by
  induction l with
  | nil => rfl
  | cons x xs ih =>
    exact (insertDesc_perm key x (sortByDesc key xs)).trans (ih.cons x)

theorem insertDesc_sorted (key : α → Int) (m : α) (l : List α)
    (h : List.Pairwise (fun a b => key b ≤ key a) l) :
    List.Pairwise (fun a b => key b ≤ key a) (insertDesc key m l) := by
  induction l with
  | nil => simp [insertDesc]
  | cons x xs ih =>
    rw [List.pairwise_cons] at h
    obtain ⟨hx, hxs⟩ := h
    by_cases hle : key x ≤ key m
    · simp only [insertDesc, if_pos hle]
      refine List.Pairwise.cons ?_ (List.Pairwise.cons hx hxs)
      intro b hb
      rw [List.mem_cons] at hb
      rcases hb with hb | hb
      · exact hb ▸ hle
      · exact le_trans (hx b hb) hle
    · simp only [insertDesc, if_neg hle]
      refine List.Pairwise.cons ?_ (ih hxs)
      intro b hb
      have hb' : b = m ∨ b ∈ xs := by
        have := (insertDesc_perm key m xs).mem_iff.mp hb
        rwa [List.mem_cons] at this
      rcases hb' with hb' | hb'
      · exact hb' ▸ le_of_not_le hle
      · exact hx b hb'

theorem sortByDesc_sorted (key : α → Int) (l : List α) :
    List.Pairwise (fun a b => key b ≤ key a) (sortByDesc key l) := by
  induction l with
  | nil => exact List.Pairwise.nil
  | cons x xs ih => exact insertDesc_sorted key x (sortByDesc key xs) ih

/-- One mapped row: the body of the `rows.map` callback shared by
`mapDB` and `handleAddMessage` in every variant, with the value of
`Math.floor(Math.random() * gradientTypes.length)` passed in as `g`. -/
def msgOfRow (g : Fin 4) (msg : DBMessage) : Message :=
  { id := toString msg.id
    content := msg.content
    author := msg.username.getD "匿名"
    timestamp := msg.created_at
    gradientType := gradientTypes.get g }

/-- `mapDB` unrolled with an explicit call counter `i`: the `i`-th row
consumes the `i`-th value of the random stream. -/
def mapDBFrom (rng : Nat → Fin 4) (i : Nat) : List DBMessage → List Message
  | [] => []
  | row :: rest => msgOfRow (rng i) row :: mapDBFrom rng (i + 1) rest

/-- `const mapDB = (rows) => rows.map((msg) => ({ ... gradientType:
gradientTypes[Math.floor(Math.random() * gradientTypes.length)] }))`
from `MessageWall.tsx` / `part_000` / `part_001` / `part_002`, with the
random draws made explicit as the stream `rng`. -/
def mapDB (rng : Nat → Fin 4) (rows : List DBMessage) : List Message :=
  mapDBFrom rng 0 rows

theorem mapDBFrom_length (rng : Nat → Fin 4) (i : Nat) (rows : List DBMessage) :
    (mapDBFrom rng i rows).length = rows.length := by
  induction rows generalizing i with
  | nil => rfl
  | cons row rest ih => simp [mapDBFrom, ih]

theorem mapDBFrom_mem (rng : Nat → Fin 4) (i : Nat) (rows : List DBMessage)
    (m : Message) (hm : m ∈ mapDBFrom rng i rows) :
    ∃ row ∈ rows, m.timestamp = row.created_at ∧ m.id = toString row.id := by
  induction rows generalizing i with
  | nil => cases hm
  | cons row rest ih =>
    rw [mapDBFrom, List.mem_cons] at hm
    rcases hm with hm | hm
    · exact ⟨row, List.mem_cons_self row rest, by simp [hm, msgOfRow]⟩
    · obtain ⟨r, hr, hts⟩ := ih (i + 1) hm
      exact ⟨r, List.mem_cons_of_mem row hr, hts⟩

/-! ## Server (`src/server.js`, `src/unnamed/part_005`)

`app.get('/messages')` runs
`SELECT id, username, content, created_at FROM public.messages
ORDER BY created_at DESC LIMIT 100` and sends the rows.  The query
string of the request is never read: no `limit`, `before`, `after`
or `offset` parameter reaches the SQL. -/

/-- Query parameters a client may place on `GET /messages`
(the `MessageWall` variants send `limit`, `before` and `offset`;
`part_002` also sends `after`). -/
structure ListReq where
  limit : Option Nat
  before : Option Int
  after : Option Int
  offset : Option Nat
deriving DecidableEq, Repr

/-- The `GET /messages` handler of `src/server.js`: the request is
ignored and the newest (at most) 100 rows are returned in
`created_at`-descending order. -/
def serverGetMessages (db : List DBMessage) (_req : ListReq) : List DBMessage :=
  (sortByDesc DBMessage.created_at db).take 100

/-! ## Current client engine (`src/src/components/MessageWall.tsx`)

State and operations of the newest `MessageWall` variant: a single
`oldest` cursor, a `hasMore` exhaustion flag, a `busyRef` single-flight
guard, id-deduplicated older merges, and sorted optimistic publish. -/

def PAGE_SIZE : Nat := 10

/-- The request a fetch issues, as far as the pagination parameters are
concerned (`?limit=&before=`, `?limit=&offset=`, or plain `?limit=`). -/
inductive FetchRequest where
  | before (limit : Nat) (cursor : Int)
  | offset (limit : Nat) (off : Nat)
  | freshest (limit : Nat)
deriving DecidableEq, Repr

structure WallState where
  messages : List Message
  renderCount : Nat
  hasMore : Bool
  oldestCursor : Option Int
  busy : Bool
deriving DecidableEq, Repr

/-- Component-mount state: `useState<Message[]>([])`,
`useState(PAGE_SIZE)`, `useState(true)` for `hasMore`,
`useRef<string | null>(null)` for the cursor, `useRef(false)` for busy. -/
def initialWallState : WallState :=
  { messages := [], renderCount := PAGE_SIZE, hasMore := true,
    oldestCursor := none, busy := false }

/-- The two early returns of `loadOlder`:
`if (busyRef.current || !hasMore) return;`
`if (!oldestCursorRef.current && messages.length === 0) return;`. -/
def loadOlderBlocked (s : WallState) : Bool :=
  s.busy || !s.hasMore || (s.oldestCursor.isNone && s.messages.isEmpty)

/-- The synchronous prefix of `loadOlder`, up to and including issuing
the fetch: either an early-return no-op (`false` = no fetch issued), or
`busyRef.current = true` followed by the fetch (`true`). -/
def loadOlderStart (s : WallState) : WallState × Bool :=
  if loadOlderBlocked s then (s, false) else ({ s with busy := true }, true)

/-- Which request `loadOlder` issues: `?limit=&before=cursor` when the
cursor exists, otherwise the `?limit=&offset=messages.length` fallback. -/
def loadOlderRequest (s : WallState) : FetchRequest :=
  match s.oldestCursor with
  | some c => .before PAGE_SIZE c
  | none => .offset PAGE_SIZE s.messages.length

/-- `const toAdd = older.filter((o) => !idSet.has(o.id))` where
`idSet = new Set(messages.map((m) => m.id))`. -/
def toAddOf (existing older : List Message) : List Message :=
  older.filter fun o => !((existing.map Message.id).contains o.id)

/-- The number of incoming items whose id was absent from the existing
set — what `loadOlder` adds to `renderCount`. -/
def novelCount (existing older : List Message) : Nat :=
  (toAddOf existing older).length

/-- The merge inside `loadOlder`: when `toAdd` is non-empty,
`[...prev, ...toAdd].sort((a, b) => b.timestamp - a.timestamp)`;
otherwise `messages` is left untouched. -/
def mergeOlder (existing older : List Message) : List Message :=
  let toAdd := toAddOf existing older
  if toAdd.isEmpty then existing
  else sortByDesc Message.timestamp (existing ++ toAdd)

/-- State update of `loadOlder` after a successful fetch whose sorted,
mapped page is `older`: merge with dedup, bump `renderCount`, advance
the cursor to the last novel item, set `hasMore` to `false` when fewer
than a page of novel items arrived, and release the guard (`finally`). -/
def loadOlderApply (s : WallState) (older : List Message) : WallState :=
  let toAdd := toAddOf s.messages older
  let s1 :=
    if h : toAdd = [] then s
    else
      { s with
        messages := sortByDesc Message.timestamp (s.messages ++ toAdd),
        renderCount := s.renderCount + toAdd.length,
        oldestCursor := some ((toAdd.getLast h).timestamp) }
  { s1 with
    hasMore := if toAdd.length < PAGE_SIZE then false else s1.hasMore,
    busy := false }

/-- One whole `loadOlder` invocation of `MessageWall.tsx`, as a function
of the pre-state and the settled fetch outcome.  Returns the post-state
and the request that was issued (`none` when the guard early-returned).
On a rejected fetch or malformed body (`.error`), control jumps to
`catch` — no state mutated — and `finally` clears the busy guard. -/
def loadOlder (s : WallState) (rng : Nat → Fin 4)
    (resp : Except Unit (List DBMessage)) : WallState × Option FetchRequest :=
  if loadOlderBlocked s then (s, none)
  else
    let req := loadOlderRequest s
    match resp with
    | .error _ => ({ s with busy := false }, some req)
    | .ok rows =>
        (loadOlderApply s (sortByDesc Message.timestamp (mapDB rng rows)), some req)

/-- `loadInitial` of `MessageWall.tsx` on a successful response `rows`:
sort the mapped page, replace `messages`, clamp `renderCount`, seed the
oldest cursor from the last item, and set `hasMore` to `false` when the
page came back short.  (On a failed fetch, `catch` leaves all state
untouched, which is the identity step.) -/
def loadInitialStep (s : WallState) (rng : Nat → Fin 4)
    (rows : List DBMessage) : WallState :=
  let list := sortByDesc Message.timestamp (mapDB rng rows)
  { s with
    messages := list,
    renderCount := min PAGE_SIZE list.length,
    oldestCursor :=
      match list.getLast? with
      | some m => some m.timestamp
      | none => s.oldestCursor,
    hasMore := if list.length < PAGE_SIZE then false else s.hasMore }

/-- `handleAddMessage` of `MessageWall.tsx` on a successful `POST`
returning `row`: build the item with one fresh random draw `g`, prepend
and re-sort, bump `renderCount`, and seed the oldest cursor only when it
was still null. -/
def handleAddMessage (s : WallState) (g : Fin 4) (row : DBMessage) : WallState :=
  let newMessage := msgOfRow g row
  { s with
    messages := sortByDesc Message.timestamp (newMessage :: s.messages),
    renderCount := s.renderCount + 1,
    oldestCursor :=
      if s.oldestCursor.isNone then some newMessage.timestamp
      else s.oldestCursor }

/-- States of the `MessageWall.tsx` engine reachable by any sequence of
operations (mount, initial load, older fetches with arbitrary server
responses, publishes), with arbitrary random streams. -/
inductive Reach : WallState → Prop
  | start : Reach initialWallState
  | init (s : WallState) (rng : Nat → Fin 4) (rows : List DBMessage) :
      Reach s → Reach (loadInitialStep s rng rows)
  | older (s : WallState) (rng : Nat → Fin 4)
      (resp : Except Unit (List DBMessage)) :
      Reach s → Reach (loadOlder s rng resp).1
  | publish (s : WallState) (g : Fin 4) (row : DBMessage) :
      Reach s → Reach (handleAddMessage s g row)

/-! ## Map-based merge (`src/unnamed/part_000`, `src/unnamed/part_002`)

`const map = new Map(); [...prev, ...older].forEach((m) => map.set(m.id, m));
Array.from(map.values()).sort((a, b) => b.timestamp - a.timestamp)`.
A JavaScript `Map` iterates in key-insertion order and `set` on an
existing key overwrites the value in place. -/

/-- `map.set(m.id, m)` on an insertion-ordered map represented as a
duplicate-free list: overwrite in place when the id is present,
append otherwise. -/
def mapSet (acc : List Message) (m : Message) : List Message :=
  if (acc.map Message.id).contains m.id then
    acc.map fun x => if x.id = m.id then m else x
  else acc ++ [m]

/-- `Array.from(map.values())` after `forEach((m) => map.set(m.id, m))`
over `l`: last-write-wins dedup by id, keeping first-insertion order. -/
def dedupById (l : List Message) : List Message :=
  l.foldl mapSet []

/-- The Map-based reconciling merge of `part_000` / `part_002`:
dedup the concatenation by id, then stable-sort newest-first. -/
def mergeMap (prev older : List Message) : List Message :=
  sortByDesc Message.timestamp (dedupById (prev ++ older))

/-- State of the `part_000` variant: two cursors, `hasMore`,
`loadingMore` UI flag (not modelled), and the `busyRef` guard. -/
structure Wall0State where
  messages : List Message
  renderCount : Nat
  hasMore : Bool
  newestCursor : Option Int
  oldestCursor : Option Int
  busy : Bool
deriving DecidableEq, Repr

def initialWall0State : Wall0State :=
  { messages := [], renderCount := PAGE_SIZE, hasMore := true,
    newestCursor := none, oldestCursor := none, busy := false }

/-- Early returns of `part_000` `loadOlder` (same shape as the current
variant). -/
def w0LoadOlderBlocked (s : Wall0State) : Bool :=
  s.busy || !s.hasMore || (s.oldestCursor.isNone && s.messages.isEmpty)

/-- `part_000` `loadOlder` state update on a mapped, sorted page
`older`: Map-merge, `renderCount += older.length`, oldest cursor set to
the last page item, newest cursor seeded from the first page item when
null, exhaustion from the raw page length, guard released in
`finally`. -/
def w0LoadOlderApply (s : Wall0State) (older : List Message) : Wall0State :=
  let s1 :=
    if h : older = [] then s
    else
      { s with
        messages := mergeMap s.messages older,
        renderCount := s.renderCount + older.length,
        oldestCursor := some ((older.getLast h).timestamp),
        newestCursor :=
          if s.newestCursor.isNone then some ((older.head h).timestamp)
          else s.newestCursor }
  { s1 with
    hasMore := if older.length < PAGE_SIZE then false else s1.hasMore,
    busy := false }

/-- One whole `part_000` `loadOlder` invocation. -/
def w0LoadOlder (s : Wall0State) (rng : Nat → Fin 4)
    (resp : Except Unit (List DBMessage)) : Wall0State :=
  if w0LoadOlderBlocked s then s
  else
    match resp with
    | .error _ => { s with busy := false }
    | .ok rows => w0LoadOlderApply s (sortByDesc Message.timestamp (mapDB rng rows))

/-- `part_000` `handleAddMessage` on a successful publish returning
`row`: prepend (no sort, no renderCount bump), set the newest cursor to
the published timestamp unconditionally, seed the oldest cursor when
null. -/
def w0HandleAdd (s : Wall0State) (g : Fin 4) (row : DBMessage) : Wall0State :=
  let m := msgOfRow g row
  { s with
    messages := m :: s.messages,
    newestCursor := some m.timestamp,
    oldestCursor :=
      if s.oldestCursor.isNone then some m.timestamp else s.oldestCursor }

/-! ## Concat-only variant (`src/unnamed/part_001`)

`loadMore` appends the mapped page with no deduplication:
`setMessages((prev) => [...prev, ...more])`. -/

structure Wall1State where
  messages : List Message
  hasMore : Bool
  isLoadingMore : Bool
  oldestCursor : Option Int
deriving DecidableEq, Repr

def initialWall1State : Wall1State :=
  { messages := [], hasMore := true, isLoadingMore := false,
    oldestCursor := none }

/-- `part_001` `loadInitial` on a successful response: store the mapped
page as-is (no client-side sort in this variant), seed the oldest
cursor from the last item, and set `hasMore` to
`data.length === PAGE_SIZE`. -/
def w1LoadInitial (s : Wall1State) (rng : Nat → Fin 4)
    (rows : List DBMessage) : Wall1State :=
  let list := mapDB rng rows
  { s with
    messages := list,
    oldestCursor :=
      match list.getLast? with
      | some m => some m.timestamp
      | none => s.oldestCursor,
    hasMore := rows.length == PAGE_SIZE }

/-- One whole `part_001` `loadMore` invocation:
`if (!hasMore || isLoadingMore) return; if (!before) return;` then fetch
`?limit=&before=`, append the mapped page without dedup, advance the
cursor, update exhaustion from the raw page length. -/
def w1LoadMore (s : Wall1State) (rng : Nat → Fin 4)
    (resp : Except Unit (List DBMessage)) : Wall1State :=
  if !s.hasMore || s.isLoadingMore then s
  else
    match s.oldestCursor with
    | none => s
    | some _ =>
      match resp with
      | .error _ => { s with isLoadingMore := false }
      | .ok rows =>
        let more := mapDB rng rows
        let s1 :=
          if h : more = [] then s
          else
            { s with
              messages := s.messages ++ more,
              oldestCursor := some ((more.getLast h).timestamp) }
        { s1 with
          hasMore := if more.length < PAGE_SIZE then false else s1.hasMore,
          isLoadingMore := false }

/-! ## Claim C1 — server pagination parameters -/

/-- Two concrete rows with `created_at` 5 and 10. -/
def dbC1 : List DBMessage :=
  [{ id := 1, username := none, content := "a", created_at := 5 },
   { id := 2, username := none, content := "b", created_at := 10 }]

/-- A concrete request `GET /messages?limit=1&before=7`. -/
def reqC1 : ListReq :=
  { limit := some 1, before := some 7, after := none, offset := none }

/-- C1 counterexample: for the two-row database and the request
`limit=1&before=7`, the server returns 2 items (more than `limit`) and
one of them has `created_at = 10`, not strictly less than `before` — the
claim that every GET honors `limit` and `before` is false at this
input. -/
theorem serverGet_pagination_cex :
    ¬ ((serverGetMessages dbC1 reqC1).length ≤ 1 ∧
       ∀ r ∈ serverGetMessages dbC1 reqC1, r.created_at < 7) := by
  decide

/-- C1 (amended): the `GET /messages` handler never reads the
pagination parameters — its response is the same for any two requests —
and it always returns at most 100 rows, sorted by `created_at`
descending. -/
theorem serverGet_ignores_params (db : List DBMessage) (req1 req2 : ListReq) :
    serverGetMessages db req1 = serverGetMessages db req2 ∧
    (serverGetMessages db req1).length ≤ 100 ∧
    List.Pairwise (fun a b => b.created_at ≤ a.created_at)
      (serverGetMessages db req1) := by
  refine ⟨rfl, ?_, ?_⟩
  · exact List.length_take_le 100 _
  · exact List.Pairwise.sublist (List.take_sublist _ _)
      (sortByDesc_sorted DBMessage.created_at db)

/-! ## Claim C10 — `mapDB` gradient nondeterminism -/

/-- A fixed raw row used to exhibit two diverging evaluations of
`mapDB`. -/
def rowC10 : DBMessage :=
  { id := 7, username := some "u", content := "hi", created_at := 100 }

/-- C10: `mapDB` is not a function of the row alone — two evaluations on
the same fixed row, differing only in the random draw, give items with
different `gradientType` (here `purple` vs `cyan`) while agreeing on
`id` and `timestamp`. -/
theorem mapDB_gradient_nondeterministic :
    (mapDB (fun _ => (0 : Fin 4)) [rowC10]).map Message.gradientType ≠
      (mapDB (fun _ => (1 : Fin 4)) [rowC10]).map Message.gradientType ∧
    (mapDB (fun _ => (0 : Fin 4)) [rowC10]).map Message.id =
      (mapDB (fun _ => (1 : Fin 4)) [rowC10]).map Message.id ∧
    (mapDB (fun _ => (0 : Fin 4)) [rowC10]).map Message.timestamp =
      (mapDB (fun _ => (1 : Fin 4)) [rowC10]).map Message.timestamp := by
  decide

/-! ## Claim C2 — id uniqueness across write paths -/

/-- A constant random stream (the accent draw is irrelevant to ids). -/
def rng0 : Nat → Fin 4 := fun _ => 0

/-- Initial page for the `part_001` run: ten rows, ids 1–10,
timestamps 110 down to 101 (server order, newest first). -/
def rowsC2 : List DBMessage :=
  [{ id := 1, username := none, content := "a", created_at := 110 },
   { id := 2, username := none, content := "b", created_at := 109 },
   { id := 3, username := none, content := "c", created_at := 108 },
   { id := 4, username := none, content := "d", created_at := 107 },
   { id := 5, username := none, content := "e", created_at := 106 },
   { id := 6, username := none, content := "f", created_at := 105 },
   { id := 7, username := none, content := "g", created_at := 104 },
   { id := 8, username := none, content := "h", created_at := 103 },
   { id := 9, username := none, content := "i", created_at := 102 },
   { id := 10, username := none, content := "j", created_at := 101 }]

/-- An older-fetch response that repeats the already-loaded row id 1 —
exactly what the real server produces, since it ignores `before`. -/
def overlapPageC2 : List DBMessage :=
  [{ id := 1, username := none, content := "a", created_at := 110 }]

/-- C2 counterexample: in the `part_001` variant, an initial load of ten
rows followed by a `loadMore` whose response repeats row id 1 leaves the
message list with two items of id `"1"` — `loadMore` appends without
passing through any deduplicating merge. -/
theorem w1LoadMore_duplicate_id_cex :
    ¬ (((w1LoadMore (w1LoadInitial initialWall1State rng0 rowsC2) rng0
          (.ok overlapPageC2)).messages.map Message.id).Nodup) := by
  decide

theorem mapSet_ids_nodup (acc : List Message) (m : Message)
    (h : (acc.map Message.id).Nodup) :
    ((mapSet acc m).map Message.id).Nodup := by
  by_cases hc : ((acc.map Message.id).contains m.id) = true
  · rw [mapSet, if_pos hc, List.map_map]
    have hmap : acc.map (Message.id ∘ fun x => if x.id = m.id then m else x) =
        acc.map Message.id := by
      apply List.map_congr_left
      intro x _
      by_cases hx : x.id = m.id
      · simp [Function.comp, hx]
      · simp [Function.comp, hx]
    rw [hmap]
    exact h
  · rw [mapSet, if_neg hc, List.map_append]
    rw [List.nodup_append]
    refine ⟨h, by simp, ?_⟩
    intro a ha hb
    simp only [List.map_cons, List.map_nil, List.mem_cons,
      List.not_mem_nil, or_false] at hb
    exact hc (List.elem_iff.mpr (hb ▸ ha))

theorem foldl_mapSet_ids_nodup (l acc : List Message)
    (h : (acc.map Message.id).Nodup) :
    ((l.foldl mapSet acc).map Message.id).Nodup := by
  induction l generalizing acc with
  | nil => exact h
  | cons x xs ih => exact ih (mapSet acc x) (mapSet_ids_nodup acc x h)

theorem dedupById_ids_nodup (l : List Message) :
    ((dedupById l).map Message.id).Nodup :=
  foldl_mapSet_ids_nodup l [] (by simp)

/-- C2 (amended): the Map-based reconciling merge of `part_000` /
`part_002` does guarantee uniqueness — for every existing list and every
incoming page, its output has no two items with equal `id`.  (Not every
write path routes through it: `part_001`'s `loadMore` appends raw, as
the counterexample shows, and the publish paths prepend directly.) -/
theorem mergeMap_ids_nodup (prev older : List Message) :
    ((mergeMap prev older).map Message.id).Nodup := by
  have hperm :=
    (sortByDesc_perm Message.timestamp (dedupById (prev ++ older))).map Message.id
  exact hperm.nodup_iff.mpr (dedupById_ids_nodup (prev ++ older))

/-! ## Claim C3 — ordering of the materialized sequence -/

/-- The state after publishing a row with id 5 at timestamp 100 and then
fetching an older page whose one row has id 9 at the same timestamp 100:
both operations of the current `MessageWall.tsx` variant. -/
def finalC3 : WallState :=
  (loadOlder
    (handleAddMessage initialWallState 0
      { id := 5, username := none, content := "p", created_at := 100 })
    rng0
    (.ok [{ id := 9, username := none, content := "q", created_at := 100 }])).1

/-- C3 counterexample: in the reachable state `finalC3`, the items with
ids `"5"` and `"9"` both have `createdAt = 100`, yet `"5"` appears
strictly before `"9"` — the comparator `b.timestamp - a.timestamp` has
no id tie-break and the stable sort keeps insertion order, so equal
timestamps are NOT ordered by id descending as the claim requires. -/
theorem wall_tie_order_cex :
    "5" ∈ finalC3.messages.map Message.id ∧
    "9" ∈ finalC3.messages.map Message.id ∧
    (∀ m ∈ finalC3.messages, m.id = "5" → m.timestamp = 100) ∧
    (∀ m ∈ finalC3.messages, m.id = "9" → m.timestamp = 100) ∧
    (finalC3.messages.map Message.id).indexOf "5" <
      (finalC3.messages.map Message.id).indexOf "9" := by
  decide

/-- The order the materialized sequence actually satisfies:
timestamps are non-increasing down the list. -/
def SortedByTimestampDesc (l : List Message) : Prop :=
  List.Pairwise (fun a b => b.timestamp ≤ a.timestamp) l

theorem loadOlderApply_messages (s : WallState) (older : List Message) :
    (loadOlderApply s older).messages = s.messages ∨
    (loadOlderApply s older).messages =
      sortByDesc Message.timestamp (s.messages ++ toAddOf s.messages older) := by
  unfold loadOlderApply
  by_cases h : toAddOf s.messages older = []
  · left
    simp [h]
  · right
    simp [h]

/-- C3 (amended): in every reachable state of the `MessageWall.tsx`
engine the materialized sequence is sorted by `createdAt` descending
(non-strictly); ties are left in the stable sort's insertion order, not
re-ordered by id. -/
theorem reach_sorted_desc (s : WallState) (h : Reach s) :
    SortedByTimestampDesc s.messages := by
  induction h with
  | start => exact List.Pairwise.nil
  | init s rng rows _ _ => exact sortByDesc_sorted Message.timestamp _
  | older s rng resp _ ih =>
    unfold loadOlder
    by_cases hb : loadOlderBlocked s
    · simpa [hb] using ih
    · match resp with
      | .error _ => simpa [hb] using ih
      | .ok rows =>
        simp only [hb, Bool.false_eq_true, if_false]
        rcases loadOlderApply_messages s
            (sortByDesc Message.timestamp (mapDB rng rows)) with hm | hm
        · rw [hm]; exact ih
        · rw [hm]; exact sortByDesc_sorted Message.timestamp _
  | publish s g row _ _ => exact sortByDesc_sorted Message.timestamp _

/-- Witness for the amended C3 theorem: the invariant evaluated at the
concrete reachable state `finalC3`. -/
theorem reach_sorted_desc_witness : SortedByTimestampDesc finalC3.messages :=
  reach_sorted_desc finalC3
    (Reach.older _ rng0 _ (Reach.publish _ 0 _ Reach.start))

/-! ## Claim C4 — cursor monotonicity -/

/-- Row published first in the C4 run (timestamp 50). -/
def rowSeedC4 : DBMessage :=
  { id := 1, username := none, content := "p", created_at := 50 }

/-- Older-fetch response row with timestamp 200 — newer than the
current oldest cursor, as the real server can return since it ignores
`before`. -/
def rowLateC4 : DBMessage :=
  { id := 2, username := none, content := "q", created_at := 200 }

/-- C4 counterexample: in the `part_000` variant, publishing at
timestamp 50 seeds `oldest = 50`; a subsequent older-fetch whose
response holds one item at timestamp 200 reassigns `oldest = 200` — the
oldest cursor INCREASED, because the update writes the page boundary
directly instead of taking the min over the union with the current
cursor. -/
theorem w0_cursor_increase_cex :
    (w0HandleAdd initialWall0State 0 rowSeedC4).oldestCursor = some 50 ∧
    (w0LoadOlder (w0HandleAdd initialWall0State 0 rowSeedC4) rng0
        (.ok [rowLateC4])).oldestCursor = some 200 ∧
    ¬ ((200 : Int) ≤ 50) := by
  decide

/-- C4 (amended): the cursor update is a direct assignment of the
fetched page's boundary, not a min over the union; consequently the
oldest cursor strictly decreases exactly when the response respects the
`before` bound — for any non-empty response whose rows are all strictly
older than the current oldest cursor, the updated oldest cursor is
strictly smaller. -/
theorem w0LoadOlder_cursor_extends (s : Wall0State) (rng : Nat → Fin 4)
    (rows : List DBMessage) (c : Int)
    (hbusy : s.busy = false) (hmore : s.hasMore = true)
    (hcur : s.oldestCursor = some c)
    (hne : rows ≠ [])
    (hbound : ∀ r ∈ rows, r.created_at < c) :
    ∃ c2, (w0LoadOlder s rng (.ok rows)).oldestCursor = some c2 ∧ c2 < c := by
  have hblocked : w0LoadOlderBlocked s = false := by
    simp [w0LoadOlderBlocked, hbusy, hmore, hcur]
  have holdne : sortByDesc Message.timestamp (mapDB rng rows) ≠ [] := by
    intro hnil
    have hlen : (sortByDesc Message.timestamp (mapDB rng rows)).length =
        rows.length := by
      rw [(sortByDesc_perm Message.timestamp (mapDB rng rows)).length_eq]
      exact mapDBFrom_length rng 0 rows
    rw [hnil] at hlen
    exact hne (List.length_eq_zero.mp hlen.symm)
  unfold w0LoadOlder
  rw [hblocked]
  simp only [Bool.false_eq_true, if_false]
  refine ⟨((sortByDesc Message.timestamp (mapDB rng rows)).getLast holdne).timestamp,
    ?_, ?_⟩
  · unfold w0LoadOlderApply
    simp [holdne]
  · have hmem : (sortByDesc Message.timestamp (mapDB rng rows)).getLast holdne ∈
        sortByDesc Message.timestamp (mapDB rng rows) := List.getLast_mem holdne
    have hmem2 : (sortByDesc Message.timestamp (mapDB rng rows)).getLast holdne ∈
        mapDB rng rows :=
      (sortByDesc_perm Message.timestamp (mapDB rng rows)).mem_iff.mp hmem
    obtain ⟨row, hrow, hts, _⟩ := mapDBFrom_mem rng 0 rows _ hmem2
    rw [hts]
    exact hbound row hrow

/-- An in-bound older row (timestamp 40 < cursor 50) for the witness. -/
def rowOldC4 : DBMessage :=
  { id := 2, username := none, content := "q", created_at := 40 }

/-- Witness for the amended C4 theorem at a concrete state and page. -/
theorem w0LoadOlder_cursor_extends_witness :
    ∃ c2, (w0LoadOlder (w0HandleAdd initialWall0State 0 rowSeedC4) rng0
        (.ok [rowOldC4])).oldestCursor = some c2 ∧ c2 < 50 :=
  w0LoadOlder_cursor_extends (w0HandleAdd initialWall0State 0 rowSeedC4) rng0
    [rowOldC4] 50 rfl rfl (by decide) (by decide) (by decide)

/-! ## Claim C5 — exhaustion flag -/

/-- An older page of exactly `PAGE_SIZE` rows: row id 10 repeats an
already-loaded item and ids 11–19 are novel. -/
def pageC5 : List DBMessage :=
  [{ id := 10, username := none, content := "j", created_at := 101 },
   { id := 11, username := none, content := "k", created_at := 100 },
   { id := 12, username := none, content := "l", created_at := 99 },
   { id := 13, username := none, content := "m", created_at := 98 },
   { id := 14, username := none, content := "n", created_at := 97 },
   { id := 15, username := none, content := "o", created_at := 96 },
   { id := 16, username := none, content := "p", created_at := 95 },
   { id := 17, username := none, content := "q", created_at := 94 },
   { id := 18, username := none, content := "r", created_at := 93 },
   { id := 19, username := none, content := "s", created_at := 92 }]

/-- C5 counterexample: after an initial load of ids 1–10, an older fetch
of `MessageWall.tsx` receives exactly `PAGE_SIZE = 10` items (so
`received < requested` is false), yet `hasMore` is set to `false`,
because the code tests the deduplicated count `toAdd.length` (9 here),
not the received count. -/
theorem loadOlder_exhaustion_cex :
    pageC5.length = PAGE_SIZE ∧
    (loadInitialStep initialWallState rng0 rowsC2).hasMore = true ∧
    ((loadOlder (loadInitialStep initialWallState rng0 rowsC2) rng0
        (.ok pageC5)).1).hasMore = false := by
  decide

theorem loadOlderBlocked_eq_false (s : WallState)
    (hbusy : s.busy = false) (hmore : s.hasMore = true)
    (hcur : ¬(s.oldestCursor = none ∧ s.messages = [])) :
    loadOlderBlocked s = false := by
  unfold loadOlderBlocked
  rw [hbusy, hmore]
  cases ho : s.oldestCursor with
  | none =>
    have hne : s.messages ≠ [] := fun hm => hcur ⟨ho, hm⟩
    simp [List.isEmpty_iff, hne]
  | some c => simp

theorem loadOlderApply_hasMore (s : WallState) (older : List Message) :
    (loadOlderApply s older).hasMore =
      if (toAddOf s.messages older).length < PAGE_SIZE then false
      else s.hasMore := by
  unfold loadOlderApply
  by_cases h : toAddOf s.messages older = []
  · simp [h]
  · simp [h]

/-- C5 (amended): in `MessageWall.tsx`, a completed older fetch sets
`hasMore` to `false` iff the number of NOVEL items — incoming items
whose id was absent, after dedup — is strictly less than `PAGE_SIZE`
(not the received count, as the counterexample shows); and once the flag
is `false`, no `loadOlder` invocation ever sets it back to `true`. -/
theorem loadOlder_exhaustion_novel (s : WallState) (rng : Nat → Fin 4)
    (rows : List DBMessage)
    (hbusy : s.busy = false) (hmore : s.hasMore = true)
    (hcur : ¬(s.oldestCursor = none ∧ s.messages = [])) :
    ((((loadOlder s rng (.ok rows)).1).hasMore = false) ↔
      novelCount s.messages (sortByDesc Message.timestamp (mapDB rng rows)) <
        PAGE_SIZE) ∧
    (∀ s2 : WallState, ∀ rng2 : Nat → Fin 4,
      ∀ resp2 : Except Unit (List DBMessage),
      s2.hasMore = false → (((loadOlder s2 rng2 resp2).1).hasMore = false)) := by
  constructor
  · have hb := loadOlderBlocked_eq_false s hbusy hmore hcur
    unfold loadOlder
    rw [hb]
    simp only [Bool.false_eq_true, if_false]
    rw [loadOlderApply_hasMore, hmore]
    unfold novelCount
    by_cases hlt :
        (toAddOf s.messages (sortByDesc Message.timestamp (mapDB rng rows))).length <
          PAGE_SIZE
    · simp [hlt]
    · simp [hlt]
  · intro s2 rng2 resp2 h2
    have hb2 : loadOlderBlocked s2 = true := by
      simp [loadOlderBlocked, h2]
    unfold loadOlder
    rw [hb2]
    simpa using h2

/-- Witness for the amended C5 theorem at the concrete initial load of
ids 1–10 followed by the overlapping one-row page. -/
theorem loadOlder_exhaustion_novel_witness :
    ((((loadOlder (loadInitialStep initialWallState rng0 rowsC2) rng0
        (.ok overlapPageC2)).1).hasMore = false) ↔
      novelCount (loadInitialStep initialWallState rng0 rowsC2).messages
        (sortByDesc Message.timestamp (mapDB rng0 overlapPageC2)) < PAGE_SIZE) ∧
    (∀ s2 : WallState, ∀ rng2 : Nat → Fin 4,
      ∀ resp2 : Except Unit (List DBMessage),
      s2.hasMore = false → (((loadOlder s2 rng2 resp2).1).hasMore = false)) :=
  loadOlder_exhaustion_novel (loadInitialStep initialWallState rng0 rowsC2)
    rng0 overlapPageC2 rfl (by decide) (by decide)

/-! ## Claim C6 — single-flight guard -/

/-- A state whose fetch guard is held (`busyRef.current === true`). -/
def busyStateC6 : WallState :=
  { messages := [], renderCount := PAGE_SIZE, hasMore := true,
    oldestCursor := some 100, busy := true }

/-- A state ready to fetch: guard free, more pages, cursor present. -/
def readyStateC6 : WallState :=
  { messages := [msgOfRow 0 rowSeedC4], renderCount := PAGE_SIZE,
    hasMore := true, oldestCursor := some 50, busy := false }

/-- C6: while `busy` is set, the synchronous trigger prefix of
`loadOlder` is a strict no-op (state unchanged, no fetch issued); and
from a ready state, two trigger invocations in the same turn — the
second running while the first holds the guard — issue exactly one
fetch: the first returns `true`, the second `false`. -/
theorem loadOlder_single_flight (s : WallState) :
    (s.busy = true → loadOlderStart s = (s, false)) ∧
    (s.busy = false → s.hasMore = true →
      ¬(s.oldestCursor = none ∧ s.messages = []) →
      (loadOlderStart s).2 = true ∧
      (loadOlderStart (loadOlderStart s).1).2 = false) := by
  constructor
  · intro hbusy
    have hb : loadOlderBlocked s = true := by
      simp [loadOlderBlocked, hbusy]
    unfold loadOlderStart
    rw [hb]
    simp
  · intro hbusy hmore hcur
    have hb := loadOlderBlocked_eq_false s hbusy hmore hcur
    have h1 : loadOlderStart s = ({ s with busy := true }, true) := by
      unfold loadOlderStart
      rw [hb]
      simp
    rw [h1]
    refine ⟨rfl, ?_⟩
    have hb2 : loadOlderBlocked { s with busy := true } = true := by
      simp [loadOlderBlocked]
    unfold loadOlderStart
    rw [hb2]
    simp

/-- Witness for C6 at the two concrete states. -/
theorem loadOlder_single_flight_witness :
    loadOlderStart busyStateC6 = (busyStateC6, false) ∧
    ((loadOlderStart readyStateC6).2 = true ∧
      (loadOlderStart (loadOlderStart readyStateC6).1).2 = false) :=
  ⟨(loadOlder_single_flight busyStateC6).1 rfl,
   (loadOlder_single_flight readyStateC6).2 rfl rfl (by decide)⟩

/-! ## Claim C7 — failure leaves state untouched, guard released -/

/-- C7: when the fetch settles as a failure (network/server error or
malformed body), `loadOlder` returns exactly the pre-call state —
messages, cursor, exhaustion flag and render count all unchanged — and
the busy guard ends released (`finally`), so a later trigger can
retry. -/
theorem loadOlder_failure_no_mutation (s : WallState) (rng : Nat → Fin 4)
    (hbusy : s.busy = false) (hmore : s.hasMore = true)
    (hcur : ¬(s.oldestCursor = none ∧ s.messages = [])) :
    (loadOlder s rng (.error ())).1 = s ∧
    ((loadOlder s rng (.error ())).1).busy = false := by
  have hb := loadOlderBlocked_eq_false s hbusy hmore hcur
  have h1 : (loadOlder s rng (.error ())).1 = s := by
    unfold loadOlder
    rw [hb]
    simp only [Bool.false_eq_true, if_false]
    show { s with busy := false } = s
    cases s with
    | mk m r h c b =>
      cases hbusy
      rfl
  exact ⟨h1, by rw [h1]; exact hbusy⟩

/-- Witness for C7 at the concrete ready state. -/
theorem loadOlder_failure_no_mutation_witness :
    (loadOlder readyStateC6 rng0 (.error ())).1 = readyStateC6 ∧
    ((loadOlder readyStateC6 rng0 (.error ())).1).busy = false :=
  loadOlder_failure_no_mutation readyStateC6 rng0 rfl rfl (by decide)

/-! ## Claim C8 — idempotent merge -/

theorem mem_id_mergeOlder (msgs older : List Message) (o : Message)
    (ho : o ∈ older) : o.id ∈ (mergeOlder msgs older).map Message.id := by
  unfold mergeOlder
  by_cases h : (toAddOf msgs older).isEmpty
  · simp only [if_pos h]
    have hnil : toAddOf msgs older = [] := by
      rwa [List.isEmpty_iff] at h
    have hp := List.filter_eq_nil_iff.mp hnil o ho
    have hp2 : ((msgs.map Message.id).contains o.id) = true := by
      simpa using hp
    exact List.elem_iff.mp hp2
  · simp only [if_neg h]
    have hperm :=
      (sortByDesc_perm Message.timestamp (msgs ++ toAddOf msgs older)).map
        Message.id
    rw [hperm.mem_iff, List.map_append, List.mem_append]
    by_cases hc : ((msgs.map Message.id).contains o.id) = true
    · left
      exact List.elem_iff.mp hc
    · right
      refine List.mem_map_of_mem Message.id ?_
      refine List.mem_filter.mpr ⟨ho, ?_⟩
      simp only [Bool.not_eq_true] at hc
      rw [hc]
      rfl

theorem toAddOf_mergeOlder (msgs older : List Message) :
    toAddOf (mergeOlder msgs older) older = [] := by
  apply List.filter_eq_nil_iff.mpr
  intro o ho
  have hmem := mem_id_mergeOlder msgs older o ho
  have hcontains := List.elem_iff.mpr hmem
  simp only [hcontains, Bool.not_true]
  decide

theorem mergeOlder_of_toAdd_nil (a b : List Message) (h : toAddOf a b = []) :
    mergeOlder a b = a := by
  unfold mergeOlder
  rw [h]
  simp

/-- C8: merging the same incoming page twice is idempotent — the second
merge returns the first merge's list unchanged, and the second merge's
novel count (what `loadOlder` adds to `renderCount`) is 0. -/
theorem mergeOlder_idempotent (msgs older : List Message) :
    mergeOlder (mergeOlder msgs older) older = mergeOlder msgs older ∧
    novelCount (mergeOlder msgs older) older = 0 := by
  have hnil := toAddOf_mergeOlder msgs older
  exact ⟨mergeOlder_of_toAdd_nil _ _ hnil, by rw [novelCount, hnil]; rfl⟩

/-! ## Claim C9 — null-cursor fallback -/

/-- C9 counterexample: at engine start (`oldestCursor` null, empty
list), an older-fetch trigger issues NO request at all — the second
early return `if (!oldestCursorRef.current && messages.length === 0)
return;` fires — rather than falling back to an offset or freshest
request as the claim demands for every null-cursor invocation. -/
theorem loadOlder_null_cursor_noop_cex :
    initialWallState.oldestCursor = none ∧
    (loadOlder initialWallState rng0 (.error ())).2 = none ∧
    loadOlderStart initialWallState = (initialWallState, false) := by
  decide

/-- C9 (amended): the offset fallback fires only when the cursor is
null AND the list is non-empty: then `loadOlder` does issue the request
`?limit=PAGE_SIZE&offset=messages.length`; with both cursor null and
list empty it is a silent no-op. -/
theorem loadOlder_offset_fallback (s : WallState) (rng : Nat → Fin 4)
    (resp : Except Unit (List DBMessage))
    (hbusy : s.busy = false) (hmore : s.hasMore = true)
    (hcurnone : s.oldestCursor = none) (hne : s.messages ≠ []) :
    (loadOlder s rng resp).2 =
      some (.offset PAGE_SIZE s.messages.length) := by
  have hb : loadOlderBlocked s = false := by
    simp [loadOlderBlocked, hbusy, hmore, hcurnone, List.isEmpty_iff, hne]
  unfold loadOlder
  rw [hb]
  simp only [Bool.false_eq_true, if_false]
  cases resp <;> simp [loadOlderRequest, hcurnone]

/-- A state with a null cursor but a non-empty list (e.g. reached when
only a publish has happened in a variant that does not seed the cursor). -/
def nullCursorStateC9 : WallState :=
  { messages := [msgOfRow 0 rowSeedC4], renderCount := PAGE_SIZE,
    hasMore := true, oldestCursor := none, busy := false }

/-- Witness for the amended C9 theorem. -/
theorem loadOlder_offset_fallback_witness :
    (loadOlder nullCursorStateC9 rng0 (.error ())).2 =
      some (.offset PAGE_SIZE nullCursorStateC9.messages.length) :=
  loadOlder_offset_fallback nullCursorStateC9 rng0 (.error ()) rfl rfl rfl
    (by decide)
